import Mathlib

/-!
Verification of the http-flow backend (mitmproxy-based HTTP interceptor).

Shallow embedding of the Python sources:
  backend/utils/base_models.py   (FilterModel, RuleModel, FlowData, enums)
  backend/services/addon.py      (HTTPInterceptorAddon request/response hooks)
  backend/models/flat_utils.py   (FlatBufferSerializer / FlatBufferDeserializer)
  backend/services/storage.py    (CacheStore, handle_sync_msg)
  backend/services/ws.py         (ConnectionManager.pong)

Python strings are Lean String, bytes are List Nat (byte values), Python int
is Int (unbounded), dictionaries are insertion-ordered association lists with
update-in-place semantics.  Timestamps (Python floats holding epoch seconds)
are modelled as exact Int values; no claim depends on fractional seconds.
Fallible Python code is embedded in Except.
-/

namespace HttpFlow

/-- Errors a Python call can raise into its caller. -/
inductive PyErr where
  /-- re.error raised when compiling or searching with a malformed pattern -/
  | regexError
  /-- ValueError, e.g. from open(path, mode="rb", encoding="utf-8") -/
  | valueError
  /-- AttributeError, e.g. None.text -/
  | attributeError
  /-- pydantic ValidationError -/
  | validationError
deriving DecidableEq

/-- backend/utils/base_models.py Operator enum (values 0..4). -/
inductive Operator where
  | contains
  | equals
  | startsWith
  | endsWith
  | regex
deriving DecidableEq

/-- Operator.to_int. -/
def Operator.toInt : Operator → Int
  | .contains => 0
  | .equals => 1
  | .startsWith => 2
  | .endsWith => 3
  | .regex => 4

/-- Operator.from_int: Operator(value) raises ValueError on unknown values. -/
def Operator.fromInt (n : Int) : Option Operator :=
  if n = 0 then some .contains
  else if n = 1 then some .equals
  else if n = 2 then some .startsWith
  else if n = 3 then some .endsWith
  else if n = 4 then some .regex
  else none

/-- FB_TO_PYTHON_OPERATOR.get lookup with default CONTAINS
    (backend/models/flat_utils.py). -/
def Operator.fromIntD (n : Int) : Operator :=
  (Operator.fromInt n).getD .contains

/-- backend/utils/base_models.py RuleAction enum (values 0..5). -/
inductive RuleAction where
  | addHeader
  | modifyHeader
  | deleteHeader
  | modifyBody
  | blockRequest
  | autoRespond
deriving DecidableEq

/-- RuleAction.to_int. -/
def RuleAction.toInt : RuleAction → Int
  | .addHeader => 0
  | .modifyHeader => 1
  | .deleteHeader => 2
  | .modifyBody => 3
  | .blockRequest => 4
  | .autoRespond => 5

/-- RuleAction.from_int: raises ValueError on unknown values. -/
def RuleAction.fromInt (n : Int) : Option RuleAction :=
  if n = 0 then some .addHeader
  else if n = 1 then some .modifyHeader
  else if n = 2 then some .deleteHeader
  else if n = 3 then some .modifyBody
  else if n = 4 then some .blockRequest
  else if n = 5 then some .autoRespond
  else none

/-- FB_TO_PYTHON_ACTION.get lookup with default ADD_HEADER. -/
def RuleAction.fromIntD (n : Int) : RuleAction :=
  (RuleAction.fromInt n).getD .addHeader

/-- backend/utils/base_models.py OperationType enum (values 0..3). -/
inductive OperationType where
  | fullSync
  | add
  | update
  | delete
deriving DecidableEq

/-- OperationType.to_int. -/
def OperationType.toInt : OperationType → Int
  | .fullSync => 0
  | .add => 1
  | .update => 2
  | .delete => 3

/-- FB_TO_PYTHON_OPERATION.get lookup with default FULL_SYNC. -/
def OperationType.fromIntD (n : Int) : OperationType :=
  if n = 1 then .add
  else if n = 2 then .update
  else if n = 3 then .delete
  else if n = 0 then .fullSync
  else .fullSync

/-- backend/utils/base_models.py FilterModel (pydantic).  id is Optional. -/
structure FilterModel where
  id : Option Int
  filter_name : String
  field : String
  operator : Operator
  value : String
deriving DecidableEq

/-- backend/utils/base_models.py RuleModel (pydantic). -/
structure RuleModel where
  id : Option Int
  rule_name : String
  filter_id : Int
  action : RuleAction
  target_key : String
  target_value : String
  enabled : Bool
deriving DecidableEq

/-- backend/utils/base_models.py FlowData (pydantic).  Header maps are
    insertion-ordered lists of pairs; timestamps are modelled as Int. -/
structure FlowData where
  id : String
  method : String
  url : String
  status : Int
  start_timestamp : Int
  end_timestamp : Int
  request_size : Int
  response_size : Int
  request_headers : List (String × String)
  response_headers : List (String × String)
  request_body : String
  response_body : String
  is_intercepted : Bool
deriving DecidableEq

/-- Modelled from the spec: backend/models/base_models.py is not under src/;
    spec section 3 lists SyncMessage with operation, rules_list, filters_data
    and a producer-side timestamp.  The codec in backend/models/flat_utils.py
    reads and writes that timestamp field. -/
structure SyncMessageT where
  operation : OperationType
  rules_list : List RuleModel
  filters_data : List FilterModel
  timestamp : Int := 0
deriving DecidableEq

/-! UTF-8 encoding and decoding.

Models the CPython codec used by str.encode, bytes.decode("utf-8", errors=...)
and http message body access.  Invalid input bytes are consumed one byte at a
time; the error policy decides whether they are dropped (errors="ignore") or
become U+FFFD (errors="replace").
-/

/-- Error policy of bytes.decode("utf-8", errors=...). -/
inductive DecodePolicy where
  | ignoreErrors
  | replaceErrors
deriving DecidableEq

/-- What a single undecodable byte contributes to the output. -/
def invalidMark : DecodePolicy → List Char
  | .ignoreErrors => []
  | .replaceErrors => [Char.ofNat 0xFFFD]

/-- UTF-8 continuation byte 0x80..0xBF. -/
def isCont (b : Nat) : Bool :=
  decide (0x80 ≤ b) && decide (b ≤ 0xBF)

/-- Valid second byte of a three-byte sequence led by b1 (excludes overlong
    forms and surrogate code points, as CPython does). -/
def cont3Ok (b1 b2 : Nat) : Bool :=
  (decide (b1 = 0xE0) && decide (0xA0 ≤ b2) && decide (b2 ≤ 0xBF)) ||
  (decide (0xE1 ≤ b1) && decide (b1 ≤ 0xEC) && isCont b2) ||
  (decide (b1 = 0xED) && decide (0x80 ≤ b2) && decide (b2 ≤ 0x9F)) ||
  (decide (0xEE ≤ b1) && decide (b1 ≤ 0xEF) && isCont b2)

/-- Valid second byte of a four-byte sequence led by b1. -/
def cont4Ok (b1 b2 : Nat) : Bool :=
  (decide (b1 = 0xF0) && decide (0x90 ≤ b2) && decide (b2 ≤ 0xBF)) ||
  (decide (0xF1 ≤ b1) && decide (b1 ≤ 0xF3) && isCont b2) ||
  (decide (b1 = 0xF4) && decide (0x80 ≤ b2) && decide (b2 ≤ 0x8F))

/-- Decode a UTF-8 byte sequence to characters under the given error policy.
    The Nat argument is recursion fuel; every step consumes at least one byte,
    so fuel equal to the byte count (as supplied by utf8DecodeBytes) is never
    exhausted and the zero-fuel equation is dead code. -/
def utf8DecodeAux (pol : DecodePolicy) : Nat → List Nat → List Char
  | _, [] => []
  | 0, _ => []
  | fuel + 1, b1 :: rest =>
    if b1 < 0x80 then
      Char.ofNat b1 :: utf8DecodeAux pol fuel rest
    else if decide (0xC2 ≤ b1) && decide (b1 ≤ 0xDF) then
      match rest with
      | b2 :: r2 =>
        if isCont b2 then
          Char.ofNat ((b1 - 0xC0) * 0x40 + (b2 - 0x80)) :: utf8DecodeAux pol fuel r2
        else
          invalidMark pol ++ utf8DecodeAux pol fuel (b2 :: r2)
      | [] => invalidMark pol
    else if decide (0xE0 ≤ b1) && decide (b1 ≤ 0xEF) then
      match rest with
      | b2 :: b3 :: r3 =>
        if cont3Ok b1 b2 && isCont b3 then
          Char.ofNat ((b1 - 0xE0) * 0x1000 + (b2 - 0x80) * 0x40 + (b3 - 0x80)) ::
            utf8DecodeAux pol fuel r3
        else
          invalidMark pol ++ utf8DecodeAux pol fuel (b2 :: b3 :: r3)
      | rest1 => invalidMark pol ++ utf8DecodeAux pol fuel rest1
    else if decide (0xF0 ≤ b1) && decide (b1 ≤ 0xF4) then
      match rest with
      | b2 :: b3 :: b4 :: r4 =>
        if cont4Ok b1 b2 && isCont b3 && isCont b4 then
          Char.ofNat ((b1 - 0xF0) * 0x40000 + (b2 - 0x80) * 0x1000 +
              (b3 - 0x80) * 0x40 + (b4 - 0x80)) :: utf8DecodeAux pol fuel r4
        else
          invalidMark pol ++ utf8DecodeAux pol fuel (b2 :: b3 :: b4 :: r4)
      | rest1 => invalidMark pol ++ utf8DecodeAux pol fuel rest1
    else
      invalidMark pol ++ utf8DecodeAux pol fuel rest

/-- bytes.decode("utf-8", errors=...) as a total String-valued function. -/
def utf8DecodeBytes (pol : DecodePolicy) (bs : List Nat) : String :=
  String.mk (utf8DecodeAux pol bs.length bs)

/-- UTF-8 encoding of one scalar value (Lean Char is never a surrogate). -/
def utf8EncodeChar (c : Char) : List Nat :=
  let n := c.toNat
  if n < 0x80 then [n]
  else if n < 0x800 then [0xC0 + n / 0x40, 0x80 + n % 0x40]
  else if n < 0x10000 then
    [0xE0 + n / 0x1000, 0x80 + (n / 0x40) % 0x40, 0x80 + n % 0x40]
  else
    [0xF0 + n / 0x40000, 0x80 + (n / 0x1000) % 0x40,
     0x80 + (n / 0x40) % 0x40, 0x80 + n % 0x40]

/-- str.encode(): UTF-8 bytes of a string.  errors="ignore" only matters for
    surrogates, which Lean strings cannot contain. -/
def strEncode (s : String) : List Nat :=
  (s.toList.map utf8EncodeChar).flatten

/-- ASCII lowercasing of one character, as bytes.lower / str.lower act on
    header names (header names are ASCII). -/
def charLower (c : Char) : Char :=
  if 65 ≤ c.toNat ∧ c.toNat ≤ 90 then Char.ofNat (c.toNat + 32) else c

/-- str.lower restricted to ASCII, over the character list. -/
def strLower (s : String) : String :=
  String.mk (s.toList.map charLower)

/-- str.startswith over the character list. -/
def strStartsWith (s pre : String) : Bool :=
  pre.toList.isPrefixOf s.toList

/-- str.endswith over the character list. -/
def strEndsWith (s suf : String) : Bool :=
  suf.toList.isSuffixOf s.toList

/-- s[n:] over the character list. -/
def strDrop (s : String) (n : Nat) : String :=
  String.mk (s.toList.drop n)

/-- Python whitespace (as far as header and model strings use it). -/
def isSpaceChar (c : Char) : Bool :=
  c = ' ' ∨ c = '\t' ∨ c = '\n' ∨ c = '\r' ∨ c.toNat = 11 ∨ c.toNat = 12

/-- str.strip() over the character list. -/
def strStrip (s : String) : String :=
  String.mk (((s.toList.dropWhile isSpaceChar).reverse.dropWhile isSpaceChar).reverse)

/-- Propositional equality on Except values is decidable componentwise. -/
def exceptDecEq {e a : Type} [DecidableEq e] [DecidableEq a] :
    (x y : Except e a) → Decidable (x = y)
  | .ok u, .ok v =>
    if h : u = v then .isTrue (by rw [h]) else
      .isFalse (by intro he; injection he; contradiction)
  | .ok _, .error _ => .isFalse (fun he => Except.noConfusion he)
  | .error _, .ok _ => .isFalse (fun he => Except.noConfusion he)
  | .error u, .error v =>
    if h : u = v then .isTrue (by rw [h]) else
      .isFalse (by intro he; injection he; contradiction)

instance {e a : Type} [DecidableEq e] [DecidableEq a] : DecidableEq (Except e a) :=
  exceptDecEq

/-! Regular expressions.

The Python re library is external code; it is modelled as an oracle mapping a
pattern and a subject to either a raised re.error (malformed pattern) or the
truth of "re.search(pattern, subject) is not None". -/

/-- Model of the re library: search(pattern, target) raising or answering. -/
abbrev ReSearch : Type := String → String → Except PyErr Bool

/-- backend/utils/base_models.py Operator.apply(value, target).
    value is the filter needle, target the selected field value. -/
def Operator.apply (re : ReSearch) (op : Operator) (value target : String) :
    Except PyErr Bool :=
  match op with
  | .contains => .ok (decide (value.toList.IsInfix target.toList))
  | .equals => .ok (decide (value = target))
  | .startsWith => .ok (strStartsWith target value)
  | .endsWith => .ok (strEndsWith target value)
  | .regex => re value target

/-! mitmproxy flow objects, as far as the addon uses them. -/

/-- mitmproxy Headers: ordered pairs with case-insensitive name lookup. -/
abbrev Headers : Type := List (String × String)

/-- headers.get(name, None): first pair whose name matches case-insensitively. -/
def headersGet (hs : Headers) (name : String) : Option String :=
  (hs.find? (fun p => strLower p.1 = strLower name)).map (·.2)

/-- name in headers. -/
def headersHas (hs : Headers) (name : String) : Bool :=
  (headersGet hs name).isSome

/-- headers[name] = value: replace the value in place if the name is present
    (case-insensitively), otherwise append. -/
def headersSet (hs : Headers) (name value : String) : Headers :=
  match hs with
  | [] => [(name, value)]
  | p :: rest =>
    if strLower p.1 = strLower name then (p.1, value) :: rest
    else p :: headersSet rest name value

/-- del headers[name]: drop every pair matching case-insensitively. -/
def headersDel (hs : Headers) (name : String) : Headers :=
  hs.filter (fun p => strLower p.1 ≠ strLower name)

/-- mitmproxy Request, as read by the addon. -/
structure MitmRequest where
  method : String
  pretty_url : String
  headers : Headers
  content : List Nat
  text : Option String
  timestamp_start : Int
deriving DecidableEq

/-- mitmproxy Response, as read by the addon. -/
structure MitmResponse where
  status_code : Int
  headers : Headers
  content : List Nat
  text : Option String
  timestamp_end : Int
deriving DecidableEq

/-- mitmproxy HTTPFlow plus the intercepted_in_request attribute the addon
    stores on it (None until a hook assigns it). -/
structure MitmFlow where
  id : String
  request : MitmRequest
  response : Option MitmResponse
  intercepted_in_request : Option Bool
deriving DecidableEq

/-- backend/utils/base_models.py FilterModel.evaluate(mitm_flow).
    Selects the field value, then applies the operator.  The header branch
    returns False early when the header is absent; an unknown field name
    returns False; the body branch decodes the request content with
    errors="ignore".  Nothing here catches re.error from the REGEX branch. -/
def FilterModel.evaluate (re : ReSearch) (f : FilterModel) (flow : MitmFlow) :
    Except PyErr Bool :=
  if f.field = "url" then
    f.operator.apply re f.value flow.request.pretty_url
  else if f.field = "method" then
    f.operator.apply re f.value flow.request.method
  else if strStartsWith f.field "header:" then
    match headersGet flow.request.headers (strDrop f.field 7) with
    | none => .ok false
    | some v => f.operator.apply re f.value v
  else if f.field = "body" then
    f.operator.apply re f.value (utf8DecodeBytes .ignoreErrors flow.request.content)
  else
    .ok false

/-! backend/services/storage.py CacheStore state and operations. -/

/-- Python dict assignment d[k] = v on an insertion-ordered association list:
    update the value in place when the key is present, else append. -/
def pyDictSet {α β : Type} [DecidableEq α] : List (α × β) → α → β → List (α × β)
  | [], k, v => [(k, v)]
  | p :: rest, k, v =>
    if p.1 = k then (p.1, v) :: rest else p :: pyDictSet rest k v

/-- Python dict lookup d.get(k). -/
def pyDictGet {α β : Type} [DecidableEq α] (d : List (α × β)) (k : α) : Option β :=
  (d.find? (fun p => p.1 = k)).map (·.2)

/-- Python del d[k] (the caller checks membership first). -/
def pyDictDel {α β : Type} [DecidableEq α] (d : List (α × β)) (k : α) : List (α × β) :=
  d.filter (fun p => p.1 ≠ k)

/-- CacheStore in-memory state: the _rules and _filters dictionaries keyed by
    integer id. -/
structure CacheState where
  rules : List (Int × RuleModel)
  filters : List (Int × FilterModel)
deriving DecidableEq

/-- The freshly initialized cache. -/
def CacheState.empty : CacheState := ⟨[], []⟩

/-- CacheStore.update_rules(rules, clear_all). -/
def CacheState.update_rules (c : CacheState) (rules : List RuleModel)
    (clearAll : Bool) : CacheState :=
  let base := if clearAll then [] else c.rules
  { c with
    rules := rules.foldl (fun acc r =>
      match r.id with
      | some i => pyDictSet acc i r
      | none => acc) base }

/-- CacheStore.update_filters(filters, clear_all). -/
def CacheState.update_filters (c : CacheState) (filters : List FilterModel)
    (clearAll : Bool) : CacheState :=
  let base := if clearAll then [] else c.filters
  { c with
    filters := filters.foldl (fun acc f =>
      match f.id with
      | some i => pyDictSet acc i f
      | none => acc) base }

/-- CacheStore.get_active_rules(): enabled rules in cache insertion order. -/
def CacheState.get_active_rules (c : CacheState) : List RuleModel :=
  (c.rules.map Prod.snd).filter (·.enabled)

/-- CacheStore.get_filter_by_id(fid). -/
def CacheState.get_filter_by_id (c : CacheState) (fid : Int) : Option FilterModel :=
  pyDictGet c.filters fid

/-- CacheStore.get_rule_by_id(rid). -/
def CacheState.get_rule_by_id (c : CacheState) (rid : Int) : Option RuleModel :=
  pyDictGet c.rules rid

/-- CacheStore.delete_rules(rule_ids). -/
def CacheState.delete_rules (c : CacheState) (ids : List Int) : CacheState :=
  { c with rules := ids.foldl (fun acc i => pyDictDel acc i) c.rules }

/-- CacheStore.delete_filters(filter_ids). -/
def CacheState.delete_filters (c : CacheState) (ids : List Int) : CacheState :=
  { c with filters := ids.foldl (fun acc i => pyDictDel acc i) c.filters }

/-- CacheStore.add_single_rule(rule): inserted only when its id is not None. -/
def CacheState.add_single_rule (c : CacheState) (r : RuleModel) : CacheState :=
  match r.id with
  | some i => { c with rules := pyDictSet c.rules i r }
  | none => c

/-- CacheStore.add_single_filter(filter_obj). -/
def CacheState.add_single_filter (c : CacheState) (f : FilterModel) : CacheState :=
  match f.id with
  | some i => { c with filters := pyDictSet c.filters i f }
  | none => c

/-- CacheStore.clear_cache(). -/
def CacheState.clear_cache (_ : CacheState) : CacheState := ⟨[], []⟩

/-! backend/services/addon.py HTTPInterceptorAddon. -/

/-- Model of the file system seen by Path(...).is_file / open: maps a path to
    the file bytes when a regular file exists there. -/
abbrev FileSys : Type := String → Option (List Nat)

/-- mitmproxy http.Response.make(status, body, headers): builds a response and
    derives a content-length header from the body. -/
def responseMake (status : Int) (body : List Nat) (hdrs : Headers) : MitmResponse :=
  { status_code := status
    headers := headersSet hdrs "content-length" (toString body.length)
    content := body
    text := some (utf8DecodeBytes .replaceErrors body)
    timestamp_end := 0 }

/-- HTTPInterceptorAddon._apply_request_rule(mitm_flow, rule).
    Returns the mutated flow and the "modified" result; every exception inside
    the try block is caught and surfaces as an unchanged flow and False.
    In the MODIFY_BODY branch, when target_key names an existing file the
    source runs open(rule.target_key, mode="rb", encoding="utf-8"), and a
    binary-mode open with an encoding argument raises ValueError before
    anything is read, so that path always lands in the except handler. -/
def applyRequestRule (fs : FileSys) (flow : MitmFlow) (rule : RuleModel) :
    MitmFlow × Bool :=
  match rule.action with
  | .addHeader =>
    if rule.target_key ≠ "" ∧ rule.target_value ≠ "" then
      ({ flow with request :=
          { flow.request with
            headers := headersSet flow.request.headers rule.target_key rule.target_value } },
        true)
    else (flow, false)
  | .modifyHeader =>
    if rule.target_key ≠ "" ∧ rule.target_value ≠ "" then
      ({ flow with request :=
          { flow.request with
            headers := headersSet flow.request.headers rule.target_key rule.target_value } },
        true)
    else (flow, false)
  | .deleteHeader =>
    if headersHas flow.request.headers rule.target_key then
      ({ flow with request :=
          { flow.request with headers := headersDel flow.request.headers rule.target_key } },
        true)
    else (flow, false)
  | .modifyBody =>
    if rule.target_key ≠ "" ∧ (fs rule.target_key).isSome then
      (flow, false)
    else
      let newContent :=
        if rule.target_value ≠ "" then strEncode rule.target_value
        else flow.request.content
      let req :=
        { flow.request with
          content := newContent
          headers := headersSet flow.request.headers "content-length"
            (toString newContent.length) }
      ({ flow with request := req }, true)
  | .blockRequest =>
    ({ flow with response := some (responseMake 403
        (strEncode "Request blocked by HTTP Interceptor rule")
        [("Content-Type", "text/plain")]) },
      true)
  | .autoRespond =>
    let body := if rule.target_value ≠ "" then rule.target_value else "Auto response"
    ({ flow with response := some (responseMake 200 (strEncode body)
        [("Content-Type", "text/plain")]) },
      true)

/-- HTTPInterceptorAddon._apply_response_rule(mitm_flow, rule).
    Returns False immediately when the flow has no response.  BLOCK_REQUEST
    and AUTO_RESPOND fall into the unknown-action warning branch here.  The
    MODIFY_BODY file branch raises ValueError exactly as in the request phase
    and is caught by the handler. -/
def applyResponseRule (fs : FileSys) (flow : MitmFlow) (rule : RuleModel) :
    MitmFlow × Bool :=
  match flow.response with
  | none => (flow, false)
  | some resp =>
    match rule.action with
    | .addHeader =>
      if rule.target_key ≠ "" ∧ rule.target_value ≠ "" then
        let resp2 := { resp with
          headers := headersSet resp.headers rule.target_key rule.target_value }
        ({ flow with response := some resp2 }, true)
      else (flow, false)
    | .modifyHeader =>
      if rule.target_key ≠ "" ∧ rule.target_value ≠ "" then
        let resp2 := { resp with
          headers := headersSet resp.headers rule.target_key rule.target_value }
        ({ flow with response := some resp2 }, true)
      else (flow, false)
    | .deleteHeader =>
      if headersHas resp.headers rule.target_key then
        let resp2 := { resp with headers := headersDel resp.headers rule.target_key }
        ({ flow with response := some resp2 }, true)
      else (flow, false)
    | .modifyBody =>
      if rule.target_key ≠ "" ∧ (fs rule.target_key).isSome then
        (flow, false)
      else
        let newContent :=
          if rule.target_value ≠ "" then strEncode rule.target_value
          else resp.content
        let resp2 := { resp with
          content := newContent
          headers := headersSet resp.headers "content-length"
            (toString newContent.length) }
        ({ flow with response := some resp2 }, true)
    | _ => (flow, false)

/-- HTTPInterceptorAddon.get_flow_data(mitm_flow, is_intercepted).
    When the flow has no response, the keyword arguments status and
    end_timestamp evaluate to None, and evaluating the response_body argument
    mitm_flow.response.text raises AttributeError before the FlowData is ever
    constructed (FlowData.status is a required int and would reject None
    anyway), so the call fails instead of producing a record. -/
def getFlowData (flow : MitmFlow) (isIntercepted : Bool) : Except PyErr FlowData :=
  match flow.response with
  | none => .error .attributeError
  | some resp =>
    .ok
      { id := flow.id
        method := flow.request.method
        url := flow.request.pretty_url
        status := resp.status_code
        start_timestamp := flow.request.timestamp_start
        end_timestamp := resp.timestamp_end
        request_size := if flow.request.content = [] then 0 else flow.request.content.length
        response_size := if resp.content = [] then 0 else resp.content.length
        request_headers := flow.request.headers
        response_headers := resp.headers
        request_body := flow.request.text.getD ""
        response_body := resp.text.getD ""
        is_intercepted := isIntercepted }

/-- The predicate closure inside HTTPInterceptorAddon.request/response:
    resolve the rule filter in the cache and evaluate it; an unresolved
    filter_id yields False.  re.error from evaluation propagates. -/
def evalPredicate (re : ReSearch) (cache : CacheState) (flow : MitmFlow)
    (rule : RuleModel) : Except PyErr Bool :=
  match cache.get_filter_by_id rule.filter_id with
  | some f => f.evaluate re flow
  | none => .ok false

/-- next(filter(predicate, rules), None): the first rule whose predicate is
    True; an exception raised by the predicate propagates. -/
def findMatchingRule (re : ReSearch) (cache : CacheState) (flow : MitmFlow) :
    List RuleModel → Except PyErr (Option RuleModel)
  | [] => .ok none
  | r :: rest =>
    match evalPredicate re cache flow r with
    | .error e => .error e
    | .ok true => .ok (some r)
    | .ok false => findMatchingRule re cache flow rest

/-- Outcome of one hook invocation: the resulting flow, the rules handed to
    _apply_request_rule / _apply_response_rule (in call order), and the
    FlowData records put on the flow queue (in call order). -/
structure HookResult where
  flow : MitmFlow
  applied : List RuleModel
  emitted : List FlowData
deriving DecidableEq

/-- HTTPInterceptorAddon.request(mitm_flow).
    stop is the stop_event state, excl the should_exclude_request predicate
    over (pretty_url, request headers).  Only a matching AUTO_RESPOND rule
    emits a FlowData in this phase. -/
def requestHook (stop : Bool) (excl : String → Headers → Bool) (re : ReSearch)
    (fs : FileSys) (cache : CacheState) (flow : MitmFlow) :
    Except PyErr HookResult :=
  if stop then .ok ⟨flow, [], []⟩
  else if excl flow.request.pretty_url flow.request.headers then .ok ⟨flow, [], []⟩
  else
    match findMatchingRule re cache flow cache.get_active_rules with
    | .error e => .error e
    | .ok none => .ok ⟨{ flow with intercepted_in_request := some false }, [], []⟩
    | .ok (some r) =>
      let res := applyRequestRule fs flow r
      let flow2 := { res.1 with intercepted_in_request := some res.2 }
      if r.action = RuleAction.autoRespond then
        match getFlowData flow2 res.2 with
        | .error e => .error e
        | .ok fd => .ok ⟨flow2, [r], [fd]⟩
      else .ok ⟨flow2, [r], []⟩

/-- HTTPInterceptorAddon.response(mitm_flow).
    Applies the first matching rule (if any) in the response phase, then
    always emits one FlowData with is_intercepted = intercepted in request OR
    mutated in response. -/
def responseHook (stop : Bool) (excl : String → Headers → Bool) (re : ReSearch)
    (fs : FileSys) (cache : CacheState) (flow : MitmFlow) :
    Except PyErr HookResult :=
  if stop then .ok ⟨flow, [], []⟩
  else if excl flow.request.pretty_url flow.request.headers then .ok ⟨flow, [], []⟩
  else
    match findMatchingRule re cache flow cache.get_active_rules with
    | .error e => .error e
    | .ok mr =>
      let res := match mr with
        | none => (flow, false)
        | some r => applyResponseRule fs flow r
      let requestIntercepted := flow.intercepted_in_request.getD false
      let isIntercepted := requestIntercepted || res.2
      match getFlowData res.1 isIntercepted with
      | .error e => .error e
      | .ok fd => .ok ⟨res.1, mr.toList, [fd]⟩

/-! backend/models/flat_utils.py codec.

The generated flatbuffers module (backend/models/backend_generated.py,
backend/models/events_generated.py and the schema files) is not under src/,
so the wire tables are modelled from the spec (section 4.1 and section 6):
strings round-trip as written, integers are stored as written, a scalar slot
written with its default value (id = 0) is elided and reads back as the
default, and an absent vector reads back with length 0.  Each wire structure
below is one flatbuffers table at the granularity the codec code uses. -/

/-- Wire form of FilterModel.  id 0 encodes an absent id. -/
structure WireFilterModel where
  id : Int
  filter_name : String
  field : String
  operator : Int
  value : String
deriving DecidableEq

/-- Wire form of RuleModel. -/
structure WireRuleModel where
  id : Int
  rule_name : String
  filter_id : Int
  action : Int
  target_key : String
  target_value : String
  enabled : Bool
deriving DecidableEq

/-- Wire form of FlowData.  Header maps travel as vectors of pairs; an empty
    dict is encoded as an absent vector, which reads back as length 0. -/
structure WireFlowData where
  id : String
  method : String
  url : String
  status : Int
  start_timestamp : Int
  end_timestamp : Int
  request_size : Int
  response_size : Int
  request_headers : List (String × String)
  response_headers : List (String × String)
  request_body : String
  response_body : String
  is_intercepted : Bool
deriving DecidableEq

/-- Wire form of SyncMessage. -/
structure WireSyncMessage where
  operation : Int
  rules : List WireRuleModel
  filters : List WireFilterModel
  timestamp : Int
deriving DecidableEq

/-- FlatBufferSerializer.serialize_filter_model: AddId is called only when id
    is not None, and flatbuffers elides a zero id slot, so the wire id is the
    id with None mapped to 0. -/
def serializeFilterModel (f : FilterModel) : WireFilterModel :=
  { id := f.id.getD 0
    filter_name := f.filter_name
    field := f.field
    operator := f.operator.toInt
    value := f.value }

/-- FlatBufferDeserializer.deserialize_filter_model: a wire id of 0 becomes
    None; the operator integer is looked up with default CONTAINS. -/
def deserializeFilterModel (w : WireFilterModel) : FilterModel :=
  { id := if w.id ≠ 0 then some w.id else none
    filter_name := w.filter_name
    field := w.field
    operator := Operator.fromIntD w.operator
    value := w.value }

/-- FlatBufferSerializer.serialize_rule_model (same layout used inside the
    rules vector of a sync message). -/
def serializeRuleModel (r : RuleModel) : WireRuleModel :=
  { id := r.id.getD 0
    rule_name := r.rule_name
    filter_id := r.filter_id
    action := r.action.toInt
    target_key := r.target_key
    target_value := r.target_value
    enabled := r.enabled }

/-- FlatBufferDeserializer.deserialize_rule_model. -/
def deserializeRuleModel (w : WireRuleModel) : RuleModel :=
  { id := if w.id ≠ 0 then some w.id else none
    rule_name := w.rule_name
    filter_id := w.filter_id
    action := RuleAction.fromIntD w.action
    target_key := w.target_key
    target_value := w.target_value
    enabled := w.enabled }

/-- FlatBufferSerializer.serialize_flow_data: bodies fall back to "" (a no-op
    for string fields), headers are written in dict order, an empty dict
    yields an absent vector (here the empty list). -/
def serializeFlowData (fd : FlowData) : WireFlowData :=
  { id := fd.id
    method := fd.method
    url := fd.url
    status := fd.status
    start_timestamp := fd.start_timestamp
    end_timestamp := fd.end_timestamp
    request_size := fd.request_size
    response_size := fd.response_size
    request_headers := fd.request_headers
    response_headers := fd.response_headers
    request_body := fd.request_body
    response_body := fd.response_body
    is_intercepted := fd.is_intercepted }

/-- FlatBufferDeserializer._extract_headers: rebuild the dict pair by pair,
    skipping any pair whose key or value is empty (both are falsy bytes). -/
def extractHeaders (l : List (String × String)) : List (String × String) :=
  l.foldl (fun acc p =>
    if p.1 ≠ "" ∧ p.2 ≠ "" then pyDictSet acc p.1 p.2 else acc) []

/-- FlatBufferDeserializer.deserialize_flow_data. -/
def deserializeFlowData (w : WireFlowData) : FlowData :=
  { id := w.id
    method := w.method
    url := w.url
    status := w.status
    start_timestamp := w.start_timestamp
    end_timestamp := w.end_timestamp
    request_size := w.request_size
    response_size := w.response_size
    request_headers := extractHeaders w.request_headers
    response_headers := extractHeaders w.response_headers
    request_body := w.request_body
    response_body := w.response_body
    is_intercepted := w.is_intercepted }

/-- FlatBufferSerializer.serialize_sync_message: the operation is mapped with
    default FULL_SYNC, both vectors are written in order (an empty list yields
    an absent vector reading back as length 0), and the timestamp slot is
    filled with time.time() at encoding time, not from the message. -/
def serializeSyncMessage (now : Int) (m : SyncMessageT) : WireSyncMessage :=
  { operation := m.operation.toInt
    rules := m.rules_list.map serializeRuleModel
    filters := m.filters_data.map serializeFilterModel
    timestamp := now }

/-- FlatBufferDeserializer.deserialize_sync_message. -/
def deserializeSyncMessage (w : WireSyncMessage) : SyncMessageT :=
  { operation := OperationType.fromIntD w.operation
    rules_list := w.rules.map deserializeRuleModel
    filters_data := w.filters.map deserializeFilterModel
    timestamp := w.timestamp }

/-! backend/services/storage.py CacheStore.handle_sync_msg. -/

/-- Result of parsing one rule entry inside handle_sync_msg.  The source
    builds RuleModel(id=rule.Id(), ...) directly from the wire table: the wire
    id is used as is (an absent id reads as 0 and is not mapped back to None
    here, unlike the codec in backend/models/flat_utils.py).  A ValueError
    from RuleAction.from_int or a pydantic validation failure on an empty
    rule_name / target_key / target_value is caught per entry and skips it;
    the validator also strips the surviving strings. -/
def parseSyncRule (w : WireRuleModel) : Option RuleModel :=
  match RuleAction.fromInt w.action with
  | none => none
  | some act =>
    if (strStrip w.rule_name) ≠ "" ∧ (strStrip w.target_key) ≠ "" ∧ (strStrip w.target_value) ≠ "" then
      some
        { id := some w.id
          rule_name := (strStrip w.rule_name)
          filter_id := w.filter_id
          action := act
          target_key := (strStrip w.target_key)
          target_value := (strStrip w.target_value)
          enabled := w.enabled }
    else none

/-- Result of parsing one filter entry inside handle_sync_msg (same direct
    use of the wire id, same per-entry exception handling). -/
def parseSyncFilter (w : WireFilterModel) : Option FilterModel :=
  match Operator.fromInt w.operator with
  | none => none
  | some op =>
    if (strStrip w.filter_name) ≠ "" ∧ (strStrip w.field) ≠ "" ∧ (strStrip w.value) ≠ "" then
      some
        { id := some w.id
          filter_name := (strStrip w.filter_name)
          field := (strStrip w.field)
          operator := op
          value := (strStrip w.value) }
    else none

/-- Python equality between the int returned by the generated Operation()
    accessor and a member of the OperationType Enum from
    backend/utils/base_models.py.  OperationType subclasses Enum, not IntEnum,
    so int.__eq__ and the reflected Enum comparison both return NotImplemented
    and the comparison is False for every pair of arguments. -/
def pyIntEqOperationType (_ : Int) (_ : OperationType) : Bool := false

/-- The dispatch part of CacheStore.handle_sync_msg after both entry lists
    have been parsed.  Each branch is written as in the source; note that the
    guards compare an int against an Enum member (see pyIntEqOperationType). -/
def applySyncFrame (c : CacheState) (frame : WireSyncMessage) : CacheState :=
  let rules_list := frame.rules.filterMap parseSyncRule
  let filters_list := frame.filters.filterMap parseSyncFilter
  if pyIntEqOperationType frame.operation .fullSync then
    (c.update_filters filters_list true).update_rules rules_list true
  else if pyIntEqOperationType frame.operation .add then
    let c1 := if filters_list ≠ [] then c.update_filters filters_list false else c
    if rules_list ≠ [] then c1.update_rules rules_list false else c1
  else if pyIntEqOperationType frame.operation .update then
    let c1 := if filters_list ≠ [] then c.update_filters filters_list false else c
    if rules_list ≠ [] then c1.update_rules rules_list false else c1
  else if pyIntEqOperationType frame.operation .delete then
    let c1 :=
      if filters_list ≠ [] then
        c.delete_filters ((filters_list.filterMap (·.id)))
      else c
    if rules_list ≠ [] then c1.delete_rules ((rules_list.filterMap (·.id))) else c1
  else c

/-- A frame decoder: GetRootAsCoreMessage plus core_msg.Message().  It either
    raises (malformed bytes), yields no sync table, or yields the sync table.
    The generated parsing code is not under src/, so the decoder is a
    parameter; a malformed frame is one the decoder rejects. -/
abbrev FrameDecoder : Type := List Nat → Except Unit (Option WireSyncMessage)

/-- CacheStore.handle_sync_msg(raw_msg): the whole body sits in a try/except
    that logs and drops the frame, so a decoding failure leaves the cache as
    it was, as does a core message without a sync table. -/
def handleSyncMsg (dec : FrameDecoder) (c : CacheState) (raw : List Nat) :
    CacheState :=
  match dec raw with
  | .error _ => c
  | .ok none => c
  | .ok (some frame) => applySyncFrame c frame

/-- One CacheStore call, for reasoning about arbitrary operation sequences. -/
inductive CacheOp where
  | updateRules (rules : List RuleModel) (clearAll : Bool)
  | updateFilters (filters : List FilterModel) (clearAll : Bool)
  | addSingleRule (r : RuleModel)
  | addSingleFilter (f : FilterModel)
  | deleteRules (ids : List Int)
  | deleteFilters (ids : List Int)
  | handleSync (dec : FrameDecoder) (raw : List Nat)
  | clearCache

/-- Apply one CacheStore call to the cache state. -/
def CacheOp.run (c : CacheState) : CacheOp → CacheState
  | .updateRules rules clearAll => c.update_rules rules clearAll
  | .updateFilters filters clearAll => c.update_filters filters clearAll
  | .addSingleRule r => c.add_single_rule r
  | .addSingleFilter f => c.add_single_filter f
  | .deleteRules ids => c.delete_rules ids
  | .deleteFilters ids => c.delete_filters ids
  | .handleSync dec raw => handleSyncMsg dec c raw
  | .clearCache => c.clear_cache

/-- Run a sequence of CacheStore calls from a starting state. -/
def runCacheOps (c : CacheState) (ops : List CacheOp) : CacheState :=
  ops.foldl CacheOp.run c

/-- The keyed-by-own-id invariant: every stored model carries exactly the id
    it is keyed under (so no stored model has id None). -/
def CacheInv (c : CacheState) : Prop :=
  (∀ p ∈ c.rules, p.2.id = some p.1) ∧ (∀ p ∈ c.filters, p.2.id = some p.1)

/-! backend/services/ws.py ConnectionManager.pong. -/

/-- One websocket frame as seen by the observer. -/
inductive WsFrame where
  | text (s : String)
  | binary (bs : List Nat)
deriving DecidableEq

/-- json.dumps escaping of one character inside a string literal (only the
    characters appearing here matter for the strings involved). -/
def jsonEscapeChar (c : Char) : String :=
  if c = '"' then "\\\""
  else if c = '\\' then "\\\\"
  else String.singleton c

/-- The JSON string literal json.dumps produces for a Python str. -/
def jsonStringLit (s : String) : String :=
  "\"" ++ String.join (s.toList.map jsonEscapeChar) ++ "\""

/-- json.dumps of a flat dict with string values, with the default
    separators (", " between items and ": " inside an item). -/
def jsonDumpsPairs (ps : List (String × String)) : String :=
  "\x7b" ++
    String.intercalate ", "
      (ps.map (fun p => jsonStringLit p.1 ++ ": " ++ jsonStringLit p.2)) ++
  "\x7d"

/-- ConnectionManager.pong(websocket) runs
    websocket.send_json(json.dumps(dict(type="pong"))): the argument is
    already the serialized object, and FastAPI send_json serializes its
    argument once more with json.dumps before sending it as a text frame. -/
def connectionManagerPong : WsFrame :=
  WsFrame.text (jsonStringLit (jsonDumpsPairs [("type", "pong")]))

/-- The reply the spec describes: a text frame whose content is the JSON
    serialization of the object with the single entry type = pong. -/
def pongFrameSpec : WsFrame :=
  WsFrame.text (jsonDumpsPairs [("type", "pong")])

/-! Concrete fixtures used by the theorems below. -/

/-- A regex oracle that never matches and never raises (the REGEX operator is
    not exercised where this is used). -/
def noRegex : ReSearch := fun _ _ => .ok false

/-- A regex oracle modelling the re library on the malformed pattern "[":
    searching with it raises re.error; other patterns search without error. -/
def reRejectingBracket : ReSearch := fun pattern _ =>
  if pattern = "[" then .error .regexError else .ok false

/-- An exclusion predicate that excludes nothing. -/
def noExclusion : String → Headers → Bool := fun _ _ => false

/-- A file system with no files. -/
def emptyFs : FileSys := fun _ => none

/-- A flow with both request and response present. -/
def sampleFlow : MitmFlow :=
  { id := "flow-1"
    request :=
      { method := "GET"
        pretty_url := "https://svc.example/api/items"
        headers := [("host", "svc.example")]
        content := [104, 105]
        text := some "hi"
        timestamp_start := 100 }
    response := some
      { status_code := 200
        headers := [("server", "kestrel")]
        content := [111, 107]
        text := some "ok"
        timestamp_end := 101 }
    intercepted_in_request := none }

/-! Helper lemmas. -/

theorem operator_fromIntD_toInt (op : Operator) : Operator.fromIntD op.toInt = op := by
  cases op <;> rfl

theorem action_fromIntD_toInt (a : RuleAction) : RuleAction.fromIntD a.toInt = a := by
  cases a <;> rfl

theorem operation_fromIntD_toInt (o : OperationType) :
    OperationType.fromIntD o.toInt = o := by
  cases o <;> rfl

/-! Claim C7. -/

/-- A flow that has not received a response yet. -/
def flowNoResponse : MitmFlow :=
  { id := "flow-nr"
    request :=
      { method := "POST"
        pretty_url := "https://example.com/api/post"
        headers := []
        content := [123, 125]
        text := some "\x7b\x7d"
        timestamp_start := 100 }
    response := none
    intercepted_in_request := none }

/-- C7: the claim says a flow without a response yields a FlowData with
    status = 0 and end_timestamp = 0.  In the source, get_flow_data on such a
    flow instead raises AttributeError while evaluating
    mitm_flow.response.text (and FlowData.status is a required int that would
    reject the None passed for status), so no record is built at all. -/
theorem c7_get_flow_data_no_response_raises :
    getFlowData flowNoResponse false = .error .attributeError ∧
    getFlowData flowNoResponse true = .error .attributeError :=
  ⟨rfl, rfl⟩

/-! Claim C5. -/

/-- Bytes of the file the MODIFY_BODY rule points at. -/
def replacementFileBytes : List Nat := [110, 101, 119]

/-- A file system where the rule target path names an existing file. -/
def fsWithFile : FileSys := fun p =>
  if p = "/tmp/replacement.bin" then some replacementFileBytes else none

/-- A MODIFY_BODY rule whose target_key is an existing file path. -/
def modifyBodyRule : RuleModel :=
  { id := some 7
    rule_name := "swap body"
    filter_id := 1
    action := .modifyBody
    target_key := "/tmp/replacement.bin"
    target_value := "fallback"
    enabled := true }

/-- C5: the claim says that when target_key names an existing file the body is
    replaced with the file bytes and content-length is updated, in both
    phases.  In the source that branch runs
    open(rule.target_key, mode="rb", encoding="utf-8"), which raises
    ValueError (binary mode takes no encoding argument); the exception handler
    returns False, so the flow is left completely unchanged in both phases.
    The target_value fallback branch (file absent) does behave as described:
    body replaced by the UTF-8 bytes of target_value, content-length set to
    the new length. -/
theorem c5_modify_body_file_branch_never_replaces :
    applyRequestRule fsWithFile sampleFlow modifyBodyRule = (sampleFlow, false) ∧
    applyResponseRule fsWithFile sampleFlow modifyBodyRule = (sampleFlow, false) ∧
    (applyRequestRule emptyFs sampleFlow modifyBodyRule).2 = true ∧
    (applyRequestRule emptyFs sampleFlow modifyBodyRule).1.request.content =
      strEncode "fallback" ∧
    headersGet (applyRequestRule emptyFs sampleFlow modifyBodyRule).1.request.headers
      "content-length" = some "8" := by
  refine ⟨by decide, by decide, by decide, by decide, by decide⟩

/-! Claim C9. -/

/-- C9 counterexample: the claim says the keepalive reply is a JSON text frame
    whose content is the object with entry type = pong.  The source calls
    send_json on a string that is already the serialized object, so the frame
    content is a JSON string, not a JSON object. -/
theorem c9_pong_counterexample : connectionManagerPong ≠ pongFrameSpec := by
  decide

/-- C9 amended: the reply is a text frame whose content is the JSON object
    serialized twice, i.e. a JSON string containing the serialized object. -/
theorem c9_pong_frame_content :
    connectionManagerPong =
      WsFrame.text "\"\x7b\\\"type\\\": \\\"pong\\\"\x7d\"" := by
  decide

/-! Claim C3. -/

/-- A REGEX filter over the url field with the malformed pattern. -/
def malformedRegexFilter : FilterModel :=
  { id := some 3
    filter_name := "bad regex"
    field := "url"
    operator := .regex
    value := "[" }

/-- C3 counterexample: the claim says a filter with a malformed REGEX pattern
    evaluates to false and never raises into the interceptor hooks.  Neither
    Operator.apply nor FilterModel.evaluate nor the hook predicate catches
    re.error, so on a flow whose url is inspected the error propagates out of
    evaluate (and from there through the predicate into the hook). -/
theorem c3_malformed_regex_counterexample :
    FilterModel.evaluate reRejectingBracket malformedRegexFilter sampleFlow =
      .error .regexError ∧
    FilterModel.evaluate reRejectingBracket malformedRegexFilter sampleFlow ≠
      .ok false := by
  exact ⟨by decide, by decide⟩

/-- C3 amended: when searching with the filter pattern raises re.error, the
    filter does not evaluate to false; evaluation propagates the error to the
    caller (shown for a url filter; the interceptor predicate and hooks add no
    handler on this path either, see c3 witness and the hook definitions). -/
theorem c3_malformed_regex_propagates (re : ReSearch) (f : FilterModel)
    (flow : MitmFlow) (e : PyErr)
    (hop : f.operator = .regex) (hfield : f.field = "url")
    (hre : re f.value flow.request.pretty_url = .error e) :
    f.evaluate re flow = .error e := by
  unfold FilterModel.evaluate
  rw [hfield, if_pos rfl]
  unfold Operator.apply
  rw [hop]
  exact hre

/-- C3 witness: the amended theorem applied to the concrete malformed-pattern
    filter and engine. -/
theorem c3_malformed_regex_propagates_witness :
    malformedRegexFilter.operator = .regex ∧
    malformedRegexFilter.field = "url" ∧
    reRejectingBracket malformedRegexFilter.value sampleFlow.request.pretty_url =
      .error .regexError ∧
    FilterModel.evaluate reRejectingBracket malformedRegexFilter sampleFlow =
      .error .regexError :=
  ⟨rfl, rfl, by decide,
    c3_malformed_regex_propagates reRejectingBracket malformedRegexFilter
      sampleFlow .regexError rfl rfl (by decide)⟩

/-! Claim C6. -/

/-- A flow whose request body is the single invalid UTF-8 byte 0xFF. -/
def binaryBodyFlow : MitmFlow :=
  { id := "flow-bin"
    request :=
      { method := "GET"
        pretty_url := "https://example.com/bin"
        headers := []
        content := [0xFF]
        text := none
        timestamp_start := 0 }
    response := none
    intercepted_in_request := none }

/-- A body filter matching exactly one replacement character. -/
def replacementCharFilter : FilterModel :=
  { id := some 4
    filter_name := "body match"
    field := "body"
    operator := .equals
    value := "�" }

/-- C6 counterexample: the claim says the body field is decoded as UTF-8 with
    replacement, so the invalid byte 0xFF would yield one U+FFFD and the
    filter below would match.  The source decodes with errors="ignore", the
    invalid byte is dropped, the selected value is "" and the filter does not
    match. -/
theorem c6_body_decoding_counterexample :
    FilterModel.evaluate noRegex replacementCharFilter binaryBodyFlow = .ok false ∧
    Operator.apply noRegex .equals "�"
      (utf8DecodeBytes .replaceErrors binaryBodyFlow.request.content) = .ok true ∧
    utf8DecodeBytes .ignoreErrors binaryBodyFlow.request.content = "" := by
  exact ⟨by decide, by decide, by decide⟩

/-- C6 amended: for a body filter the selected field value is the request
    content decoded as UTF-8 with errors="ignore" (invalid bytes are dropped);
    decoding is total, so it never raises. -/
theorem c6_body_decoded_with_ignore (re : ReSearch) (f : FilterModel)
    (flow : MitmFlow) (hfield : f.field = "body") :
    f.evaluate re flow =
      f.operator.apply re f.value
        (utf8DecodeBytes .ignoreErrors flow.request.content) := by
  unfold FilterModel.evaluate
  rw [hfield]
  rw [if_neg (by decide), if_neg (by decide), if_neg (by decide), if_pos rfl]

/-- C6 witness: the amended theorem at the concrete binary-body flow. -/
theorem c6_body_decoded_with_ignore_witness :
    replacementCharFilter.field = "body" ∧
    FilterModel.evaluate noRegex replacementCharFilter binaryBodyFlow =
      Operator.apply noRegex replacementCharFilter.operator
        replacementCharFilter.value
        (utf8DecodeBytes .ignoreErrors binaryBodyFlow.request.content) :=
  ⟨rfl, c6_body_decoded_with_ignore noRegex replacementCharFilter binaryBodyFlow rfl⟩

/-! Claim C4. -/

/-- A filter matching DELETE requests by method. -/
def methodDeleteFilter : FilterModel :=
  { id := some 1
    filter_name := "is delete"
    field := "method"
    operator := .equals
    value := "DELETE" }

/-- A BLOCK_REQUEST rule guarded by the DELETE filter. -/
def blockRule : RuleModel :=
  { id := some 1
    rule_name := "block deletes"
    filter_id := 1
    action := .blockRequest
    target_key := "unused"
    target_value := "unused"
    enabled := true }

/-- Cache snapshot holding exactly the block rule and its filter. -/
def cacheBlock : CacheState :=
  { rules := [(1, blockRule)]
    filters := [(1, methodDeleteFilter)] }

/-- A DELETE request without a response yet. -/
def flowDelete : MitmFlow :=
  { id := "flow-del"
    request :=
      { method := "DELETE"
        pretty_url := "https://x/"
        headers := []
        content := []
        text := some ""
        timestamp_start := 1 }
    response := none
    intercepted_in_request := none }

/-- C4 counterexample: the claim says a first matching rule with action
    AUTO_RESPOND or BLOCK_REQUEST emits the synthesized flow immediately.  The
    request hook only emits when the action equals AUTO_RESPOND: here the
    matching rule is BLOCK_REQUEST, it is applied, yet nothing is emitted in
    the request phase. -/
theorem c4_block_request_not_emitted_counterexample :
    findMatchingRule noRegex cacheBlock flowDelete cacheBlock.get_active_rules =
      .ok (some blockRule) ∧
    blockRule.action = .blockRequest ∧
    (requestHook false noExclusion noRegex emptyFs cacheBlock flowDelete).map
      (fun r => (r.applied, r.emitted)) = .ok ([blockRule], []) := by
  exact ⟨by decide, rfl, by decide⟩

/-- C4 amended: in the request phase, only a first matching rule whose action
    is AUTO_RESPOND emits the synthesized flow immediately; for every other
    action (BLOCK_REQUEST included) nothing is emitted in this phase and the
    flow records whether the rule was applied in intercepted_in_request. -/
theorem c4_only_auto_respond_emits (re : ReSearch) (fs : FileSys)
    (excl : String → Headers → Bool) (cache : CacheState) (flow : MitmFlow)
    (r : RuleModel) (res : HookResult)
    (hexcl : excl flow.request.pretty_url flow.request.headers = false)
    (hfind : findMatchingRule re cache flow cache.get_active_rules = .ok (some r))
    (hreq : requestHook false excl re fs cache flow = .ok res) :
    (r.action = .autoRespond → ∃ fd, res.emitted = [fd]) ∧
    (r.action ≠ .autoRespond →
      res.emitted = [] ∧
      res.flow.intercepted_in_request = some (applyRequestRule fs flow r).2) := by
  unfold requestHook at hreq
  simp only [hexcl, Bool.false_eq_true, if_false] at hreq
  rw [hfind] at hreq
  dsimp only at hreq
  by_cases hact : r.action = RuleAction.autoRespond
  · rw [if_pos hact] at hreq
    refine ⟨fun _ => ?_, fun hne => absurd hact hne⟩
    split at hreq
    · exact Except.noConfusion hreq
    · rename_i fd _
      injection hreq with h
      exact ⟨fd, by rw [← h]⟩
  · rw [if_neg hact] at hreq
    injection hreq with h
    exact ⟨fun hc => absurd hc hact, fun _ => by rw [← h]; exact ⟨rfl, rfl⟩⟩

/-- C4 witness: the amended theorem at the concrete BLOCK_REQUEST fixture. -/
theorem c4_only_auto_respond_emits_witness :
    noExclusion flowDelete.request.pretty_url flowDelete.request.headers = false ∧
    findMatchingRule noRegex cacheBlock flowDelete cacheBlock.get_active_rules =
      .ok (some blockRule) ∧
    ∃ res, requestHook false noExclusion noRegex emptyFs cacheBlock flowDelete =
        .ok res ∧
      (blockRule.action ≠ .autoRespond →
        res.emitted = [] ∧
        res.flow.intercepted_in_request =
          some (applyRequestRule emptyFs flowDelete blockRule).2) := by
  refine ⟨rfl, by decide, ?_⟩
  cases hreq : requestHook false noExclusion noRegex emptyFs cacheBlock flowDelete with
  | error e =>
    have h2 : (requestHook false noExclusion noRegex emptyFs cacheBlock
        flowDelete).map (fun r => r.emitted) = .ok [] := by decide
    rw [hreq] at h2
    exact Except.noConfusion h2
  | ok res =>
    exact ⟨res, rfl,
      (c4_only_auto_respond_emits noRegex emptyFs noExclusion cacheBlock flowDelete
        blockRule res rfl (by decide) hreq).2⟩

/-! Claim C1. -/

/-- findMatchingRule either raises (a predicate before the first match raised)
    or returns a match whose index is at most that of any rule whose predicate
    is True. -/
theorem findMatchingRule_first (re : ReSearch) (cache : CacheState)
    (flow : MitmFlow) :
    ∀ (l : List RuleModel) (i : Nat) (hi : i < l.length),
      evalPredicate re cache flow (l.get ⟨i, hi⟩) = .ok true →
      (∃ e, findMatchingRule re cache flow l = .error e) ∨
      (∃ (k : Nat) (hk : k < l.length), k ≤ i ∧
        evalPredicate re cache flow (l.get ⟨k, hk⟩) = .ok true ∧
        findMatchingRule re cache flow l = .ok (some (l.get ⟨k, hk⟩))) := by
  intro l
  induction l with
  | nil => intro i hi; exact absurd hi (by simp)
  | cons r rest ih =>
    intro i hi hp
    cases hpr : evalPredicate re cache flow r with
    | error e =>
      exact Or.inl ⟨e, by unfold findMatchingRule; rw [hpr]⟩
    | ok b =>
      cases b with
      | true =>
        refine Or.inr ⟨0, by simp, Nat.zero_le i, ?_, ?_⟩
        · simpa using hpr
        · unfold findMatchingRule; rw [hpr]; rfl
      | false =>
        cases i with
        | zero =>
          rw [show (r :: rest).get ⟨0, hi⟩ = r from rfl] at hp
          rw [hpr] at hp
          exact absurd hp (by simp)
        | succ i0 =>
          have hi0 : i0 < rest.length := Nat.lt_of_succ_lt_succ hi
          have hp0 : evalPredicate re cache flow (rest.get ⟨i0, hi0⟩) = .ok true := by
            simpa using hp
          cases ih i0 hi0 hp0 with
          | inl herr =>
            obtain ⟨e, he⟩ := herr
            exact Or.inl ⟨e, by unfold findMatchingRule; rw [hpr]; exact he⟩
          | inr hsome =>
            obtain ⟨k, hk, hki, hkp, hkf⟩ := hsome
            refine Or.inr ⟨k + 1, Nat.succ_lt_succ hk, Nat.succ_le_succ hki, ?_, ?_⟩
            · simpa using hkp
            · unfold findMatchingRule; rw [hpr]
              rw [hkf]
              rfl

/-- C1: in each phase the hook hands at most one rule to the apply step, and
    whenever two rules in the active-rules snapshot both match, the rule that
    is applied sits at an index no greater than the earlier of the two: the
    first matching rule wins and later matching rules are never applied. -/
theorem c1_first_match_only (re : ReSearch) (fs : FileSys)
    (excl : String → Headers → Bool) (cache : CacheState) (flow : MitmFlow)
    (i j : Nat) (hi : i < cache.get_active_rules.length)
    (hj : j < cache.get_active_rules.length)
    (hij : i < j)
    (hexcl : excl flow.request.pretty_url flow.request.headers = false)
    (hpi : evalPredicate re cache flow (cache.get_active_rules.get ⟨i, hi⟩) = .ok true)
    (hpj : evalPredicate re cache flow (cache.get_active_rules.get ⟨j, hj⟩) = .ok true) :
    ∃ (k : Nat) (hk : k < cache.get_active_rules.length), k ≤ i ∧
      evalPredicate re cache flow (cache.get_active_rules.get ⟨k, hk⟩) = .ok true ∧
      (∀ res, requestHook false excl re fs cache flow = .ok res →
        res.applied = [cache.get_active_rules.get ⟨k, hk⟩]) ∧
      (∀ res, responseHook false excl re fs cache flow = .ok res →
        res.applied = [cache.get_active_rules.get ⟨k, hk⟩]) := by
  cases findMatchingRule_first re cache flow cache.get_active_rules i hi hpi with
  | inl herr =>
    obtain ⟨e, he⟩ := herr
    refine ⟨i, hi, Nat.le_refl i, hpi, ?_, ?_⟩
    · intro res hres
      unfold requestHook at hres
      simp only [hexcl, Bool.false_eq_true, if_false] at hres
      rw [he] at hres
      exact Except.noConfusion hres
    · intro res hres
      unfold responseHook at hres
      simp only [hexcl, Bool.false_eq_true, if_false] at hres
      rw [he] at hres
      exact Except.noConfusion hres
  | inr hsome =>
    obtain ⟨k, hk, hki, hkp, hkf⟩ := hsome
    refine ⟨k, hk, hki, hkp, ?_, ?_⟩
    · intro res hres
      unfold requestHook at hres
      simp only [hexcl, Bool.false_eq_true, if_false] at hres
      rw [hkf] at hres
      dsimp only at hres
      split at hres
      · split at hres
        · exact Except.noConfusion hres
        · injection hres with h; rw [← h]
      · injection hres with h; rw [← h]
    · intro res hres
      unfold responseHook at hres
      simp only [hexcl, Bool.false_eq_true, if_false] at hres
      rw [hkf] at hres
      dsimp only at hres
      split at hres
      · exact Except.noConfusion hres
      · injection hres with h
        rw [← h]
        rfl

/-- Two ADD_HEADER rules guarded by the same always-matching filter. -/
def addHeaderRuleA : RuleModel :=
  { id := some 1
    rule_name := "first header"
    filter_id := 1
    action := .addHeader
    target_key := "X-A"
    target_value := "1"
    enabled := true }

/-- The second rule: also matches, must never be applied. -/
def addHeaderRuleB : RuleModel :=
  { id := some 2
    rule_name := "second header"
    filter_id := 1
    action := .addHeader
    target_key := "X-B"
    target_value := "2"
    enabled := true }

/-- A filter matching every flow (every url contains the empty string). -/
def matchAllFilter : FilterModel :=
  { id := some 1
    filter_name := "match all"
    field := "url"
    operator := .contains
    value := "" }

/-- Cache snapshot with two rules that both match every flow. -/
def cacheTwoRules : CacheState :=
  { rules := [(1, addHeaderRuleA), (2, addHeaderRuleB)]
    filters := [(1, matchAllFilter)] }

/-- C1 witness: the theorem at a concrete snapshot in which the rules at
    indices 0 and 1 both match. -/
theorem c1_first_match_only_witness :
    ∃ (k : Nat) (hk : k < cacheTwoRules.get_active_rules.length), k ≤ 0 ∧
      evalPredicate noRegex cacheTwoRules sampleFlow
        (cacheTwoRules.get_active_rules.get ⟨k, hk⟩) = .ok true ∧
      (∀ res, requestHook false noExclusion noRegex emptyFs cacheTwoRules
          sampleFlow = .ok res →
        res.applied = [cacheTwoRules.get_active_rules.get ⟨k, hk⟩]) ∧
      (∀ res, responseHook false noExclusion noRegex emptyFs cacheTwoRules
          sampleFlow = .ok res →
        res.applied = [cacheTwoRules.get_active_rules.get ⟨k, hk⟩]) :=
  c1_first_match_only noRegex emptyFs noExclusion cacheTwoRules sampleFlow
    0 1 (by decide) (by decide) (by decide) rfl (by decide) (by decide)

/-! Claim C2. -/

/-- A header pair list as produced from a Python dict with validated entries:
    no empty names or values, and no duplicate names. -/
def HeadersClean (l : List (String × String)) : Prop :=
  (∀ p ∈ l, p.1 ≠ "" ∧ p.2 ≠ "") ∧ (l.map Prod.fst).Nodup

theorem pyDictSet_of_not_mem {k : String} {v : String}
    (acc : List (String × String)) (h : ∀ p ∈ acc, p.1 ≠ k) :
    pyDictSet acc k v = acc ++ [(k, v)] := by
  induction acc with
  | nil => rfl
  | cons p rest ih =>
    unfold pyDictSet
    rw [if_neg (h p (List.mem_cons_self p rest))]
    rw [ih (fun q hq => h q (List.mem_cons_of_mem p hq))]
    rfl

theorem extractHeaders_foldl_clean :
    ∀ (l acc : List (String × String)),
      (∀ p ∈ l, p.1 ≠ "" ∧ p.2 ≠ "") →
      (l.map Prod.fst).Nodup →
      (∀ p ∈ l, ∀ q ∈ acc, q.1 ≠ p.1) →
      l.foldl (fun acc p =>
        if p.1 ≠ "" ∧ p.2 ≠ "" then pyDictSet acc p.1 p.2 else acc) acc =
        acc ++ l := by
  intro l
  induction l with
  | nil => intro acc _ _ _; simp
  | cons p rest ih =>
    intro acc hne hnd hdisj
    have hp := hne p (List.mem_cons_self p rest)
    have hstep : (if p.1 ≠ "" ∧ p.2 ≠ "" then pyDictSet acc p.1 p.2 else acc) =
        acc ++ [p] := by
      rw [if_pos hp]
      rw [pyDictSet_of_not_mem acc (fun q hq => hdisj p (List.mem_cons_self p rest) q hq)]
    rw [List.foldl_cons, hstep]
    have hnd1 : p.1 ∉ rest.map Prod.fst ∧ (rest.map Prod.fst).Nodup := by
      rw [List.map_cons] at hnd
      exact List.nodup_cons.mp hnd
    have hnd0 : p.1 ∉ rest.map Prod.fst := hnd1.1
    have hrest := ih (acc ++ [p])
      (fun q hq => hne q (List.mem_cons_of_mem p hq))
      hnd1.2
      (by
        intro q hq z hz
        rcases List.mem_append.mp hz with hz1 | hz2
        · exact hdisj q (List.mem_cons_of_mem p hq) z hz1
        · rcases List.mem_singleton.mp hz2 with rfl
          intro hcontra
          exact hnd0 (by
            rw [hcontra]
            exact List.mem_map_of_mem Prod.fst hq))
    rw [hrest, List.append_assoc]
    rfl

/-- Round-trip of a clean header table through the deserializer dict build. -/
theorem extractHeaders_clean (l : List (String × String)) (h : HeadersClean l) :
    extractHeaders l = l := by
  unfold extractHeaders
  have := extractHeaders_foldl_clean l [] h.1 h.2 (by intro p _ q hq; cases hq)
  simpa using this

theorem filter_roundtrip (f : FilterModel) (h : f.id ≠ some 0) :
    deserializeFilterModel (serializeFilterModel f) = f := by
  unfold serializeFilterModel deserializeFilterModel
  cases hid : f.id with
  | none =>
    simp only [Option.getD_none]
    rw [if_neg (by simp), operator_fromIntD_toInt, ← hid]
  | some v =>
    have hv : v ≠ 0 := by
      intro hcontra
      subst hcontra
      exact h hid
    simp only [Option.getD_some]
    rw [if_pos hv, operator_fromIntD_toInt, ← hid]

theorem rule_roundtrip (r : RuleModel) (h : r.id ≠ some 0) :
    deserializeRuleModel (serializeRuleModel r) = r := by
  unfold serializeRuleModel deserializeRuleModel
  cases hid : r.id with
  | none =>
    simp only [Option.getD_none]
    rw [if_neg (by simp), action_fromIntD_toInt, ← hid]
  | some v =>
    have hv : v ≠ 0 := by
      intro hcontra
      subst hcontra
      exact h hid
    simp only [Option.getD_some]
    rw [if_pos hv, action_fromIntD_toInt, ← hid]

theorem flow_roundtrip (fd : FlowData) (hreq : HeadersClean fd.request_headers)
    (hresp : HeadersClean fd.response_headers) :
    deserializeFlowData (serializeFlowData fd) = fd := by
  unfold serializeFlowData deserializeFlowData
  rw [extractHeaders_clean fd.request_headers hreq,
    extractHeaders_clean fd.response_headers hresp]

theorem rules_map_roundtrip :
    ∀ (l : List RuleModel), (∀ r ∈ l, r.id ≠ some 0) →
      (l.map serializeRuleModel).map deserializeRuleModel = l := by
  intro l
  induction l with
  | nil => intro _; rfl
  | cons r rest ih =>
    intro h
    simp only [List.map_cons]
    rw [rule_roundtrip r (h r (List.mem_cons_self r rest)),
      ih (fun q hq => h q (List.mem_cons_of_mem r hq))]

theorem filters_map_roundtrip :
    ∀ (l : List FilterModel), (∀ f ∈ l, f.id ≠ some 0) →
      (l.map serializeFilterModel).map deserializeFilterModel = l := by
  intro l
  induction l with
  | nil => intro _; rfl
  | cons f rest ih =>
    intro h
    simp only [List.map_cons]
    rw [filter_roundtrip f (h f (List.mem_cons_self f rest)),
      ih (fun q hq => h q (List.mem_cons_of_mem f hq))]

theorem sync_roundtrip (now : Int) (m : SyncMessageT)
    (hr : ∀ r ∈ m.rules_list, r.id ≠ some 0)
    (hf : ∀ f ∈ m.filters_data, f.id ≠ some 0) :
    deserializeSyncMessage (serializeSyncMessage now m) =
      { m with timestamp := now } := by
  unfold serializeSyncMessage deserializeSyncMessage
  rw [operation_fromIntD_toInt, rules_map_roundtrip m.rules_list hr,
    filters_map_roundtrip m.filters_data hf]

theorem filter_encode_stable (f : FilterModel) :
    serializeFilterModel (deserializeFilterModel (serializeFilterModel f)) =
      serializeFilterModel f := by
  unfold serializeFilterModel deserializeFilterModel
  by_cases h0 : f.id.getD 0 = 0
  · rw [if_neg (by simpa using h0)]
    simp only [Option.getD_none, Option.getD_some]
    rw [operator_fromIntD_toInt, h0]
  · rw [if_pos h0]
    simp only [Option.getD_some]
    rw [operator_fromIntD_toInt]

theorem rule_encode_stable (r : RuleModel) :
    serializeRuleModel (deserializeRuleModel (serializeRuleModel r)) =
      serializeRuleModel r := by
  unfold serializeRuleModel deserializeRuleModel
  by_cases h0 : r.id.getD 0 = 0
  · rw [if_neg (by simpa using h0)]
    simp only [Option.getD_none, Option.getD_some]
    rw [action_fromIntD_toInt, h0]
  · rw [if_pos h0]
    simp only [Option.getD_some]
    rw [action_fromIntD_toInt]

theorem sync_encode_stable (now : Int) (m : SyncMessageT) :
    serializeSyncMessage now (deserializeSyncMessage (serializeSyncMessage now m)) =
      serializeSyncMessage now m := by
  unfold serializeSyncMessage deserializeSyncMessage
  simp only
  rw [operation_fromIntD_toInt]
  have hrules : ∀ (l : List RuleModel),
      ((l.map serializeRuleModel).map deserializeRuleModel).map serializeRuleModel =
        l.map serializeRuleModel := by
    intro l
    induction l with
    | nil => rfl
    | cons r rest ih =>
      simp only [List.map_cons]
      rw [rule_encode_stable r, ih]
  have hfilters : ∀ (l : List FilterModel),
      ((l.map serializeFilterModel).map deserializeFilterModel).map
        serializeFilterModel = l.map serializeFilterModel := by
    intro l
    induction l with
    | nil => rfl
    | cons f rest ih =>
      simp only [List.map_cons]
      rw [filter_encode_stable f, ih]
  rw [hrules m.rules_list, hfilters m.filters_data]

/-- C2: the claim states decode(encode(x)) = x for every constructed message
    of every codec type, with id None encoded as 0 and wire 0 decoded back to
    None, and idempotent repeated encoding.  That fails as stated (see the
    counterexample); this amended statement records what does hold: exact
    round-trips for FilterModel and RuleModel whenever id is not the literal 0,
    for FlowData whenever the header maps carry no empty names or values, and
    for SyncMessage under those id conditions and up to the timestamp, which
    the encoder overwrites with the encoding time; re-encoding a decoded
    encoding reproduces the same bytes (at a fixed encoding time). -/
theorem c2_codec_roundtrip_amended :
    (∀ f : FilterModel, f.id ≠ some 0 →
      deserializeFilterModel (serializeFilterModel f) = f) ∧
    (∀ r : RuleModel, r.id ≠ some 0 →
      deserializeRuleModel (serializeRuleModel r) = r) ∧
    (∀ fd : FlowData, HeadersClean fd.request_headers →
      HeadersClean fd.response_headers →
      deserializeFlowData (serializeFlowData fd) = fd) ∧
    (∀ (now : Int) (m : SyncMessageT),
      (∀ r ∈ m.rules_list, r.id ≠ some 0) →
      (∀ f ∈ m.filters_data, f.id ≠ some 0) →
      deserializeSyncMessage (serializeSyncMessage now m) =
        { m with timestamp := now }) ∧
    (∀ f : FilterModel,
      serializeFilterModel (deserializeFilterModel (serializeFilterModel f)) =
        serializeFilterModel f) ∧
    (∀ r : RuleModel,
      serializeRuleModel (deserializeRuleModel (serializeRuleModel r)) =
        serializeRuleModel r) ∧
    (∀ (now : Int) (m : SyncMessageT),
      serializeSyncMessage now
          (deserializeSyncMessage (serializeSyncMessage now m)) =
        serializeSyncMessage now m) :=
  ⟨filter_roundtrip, rule_roundtrip, flow_roundtrip, sync_roundtrip,
    filter_encode_stable, rule_encode_stable, sync_encode_stable⟩

/-- A perfectly constructible filter whose id is the integer 0. -/
def zeroIdFilter : FilterModel :=
  { id := some 0
    filter_name := "zero id"
    field := "url"
    operator := .contains
    value := "x" }

/-- C2 counterexample: encoding maps id 0 to wire 0 and decoding maps wire 0
    to id None, so a filter constructed with id = 0 does not round-trip: the
    claim quantifies over every constructed message, and this one comes back
    different.  (The sync timestamp gives an independent failure: the encoder
    stores the encoding time, so decode(encode(m)) differs from m on any m
    whose timestamp is not the encoding time.) -/
theorem c2_codec_roundtrip_counterexample :
    deserializeFilterModel (serializeFilterModel zeroIdFilter) ≠ zeroIdFilter ∧
    deserializeSyncMessage (serializeSyncMessage 5
        { operation := .add, rules_list := [], filters_data := [], timestamp := 0 }) ≠
      { operation := .add, rules_list := [], filters_data := [], timestamp := 0 } := by
  exact ⟨by decide, by decide⟩

/-- A filter with a nonzero id, for the witness. -/
def sampleFilter : FilterModel :=
  { id := some 42
    filter_name := "api filter"
    field := "url"
    operator := .contains
    value := "/api/" }

/-- A rule with a nonzero id, for the witness. -/
def sampleRule : RuleModel :=
  { id := some 9
    rule_name := "add trace header"
    filter_id := 42
    action := .addHeader
    target_key := "X-Trace"
    target_value := "1"
    enabled := true }

/-- A FlowData with clean headers, for the witness. -/
def sampleFlowData : FlowData :=
  { id := "fd-1"
    method := "GET"
    url := "https://svc.example/api/items"
    status := 200
    start_timestamp := 100
    end_timestamp := 101
    request_headers := [("host", "svc.example"), ("accept", "*/*")]
    response_headers := [("server", "kestrel")]
    request_size := 2
    response_size := 2
    request_body := "hi"
    response_body := "ok"
    is_intercepted := false }

/-- A sync message containing the sample models, for the witness. -/
def sampleSync : SyncMessageT :=
  { operation := .add
    rules_list := [sampleRule]
    filters_data := [sampleFilter]
    timestamp := 3 }

/-- C2 witness: the amended theorem applied to concrete messages, with every
    hypothesis discharged by evaluation. -/
theorem c2_codec_roundtrip_amended_witness :
    sampleFilter.id ≠ some 0 ∧
    deserializeFilterModel (serializeFilterModel sampleFilter) = sampleFilter ∧
    sampleRule.id ≠ some 0 ∧
    deserializeRuleModel (serializeRuleModel sampleRule) = sampleRule ∧
    deserializeFlowData (serializeFlowData sampleFlowData) = sampleFlowData ∧
    deserializeSyncMessage (serializeSyncMessage 7 sampleSync) =
      { sampleSync with timestamp := 7 } ∧
    serializeSyncMessage 7 (deserializeSyncMessage (serializeSyncMessage 7
      sampleSync)) = serializeSyncMessage 7 sampleSync :=
  ⟨by decide,
    c2_codec_roundtrip_amended.1 sampleFilter (by decide),
    by decide,
    c2_codec_roundtrip_amended.2.1 sampleRule (by decide),
    c2_codec_roundtrip_amended.2.2.1 sampleFlowData
      (by constructor <;> decide) (by constructor <;> decide),
    c2_codec_roundtrip_amended.2.2.2.1 7 sampleSync
      (by intro r hr; cases hr with
        | head => decide
        | tail _ h => cases h)
      (by intro f hf; cases hf with
        | head => decide
        | tail _ h => cases h),
    c2_codec_roundtrip_amended.2.2.2.2.2.2 7 sampleSync⟩

/-! Claim C8. -/

/-- C8: a byte string that is not a well-formed sync frame (the decoder
    raises on it) is dropped by handle_sync_msg without raising — the handler
    is a total function here because its whole body is inside a try/except —
    and the cache keeps exactly its prior rules and filters. -/
theorem c8_malformed_frame_keeps_cache (dec : FrameDecoder) (c : CacheState)
    (raw : List Nat) (e : Unit) (h : dec raw = .error e) :
    handleSyncMsg dec c raw = c := by
  unfold handleSyncMsg
  rw [h]

/-- A decoder rejecting every frame, standing for flatbuffers parsing raising
    on garbage bytes. -/
def rejectAllDecoder : FrameDecoder := fun _ => .error ()

/-- C8 witness: the theorem at a concrete cache and frame. -/
theorem c8_malformed_frame_keeps_cache_witness :
    rejectAllDecoder [0, 1, 2] = .error () ∧
    handleSyncMsg rejectAllDecoder cacheTwoRules [0, 1, 2] = cacheTwoRules :=
  ⟨rfl, c8_malformed_frame_keeps_cache rejectAllDecoder cacheTwoRules [0, 1, 2] () rfl⟩

/-! Claim C10. -/

theorem pyDictSet_inv {β : Type} (P : Int × β → Prop) :
    ∀ (d : List (Int × β)) (k : Int) (v : β),
      (∀ p ∈ d, P p) → P (k, v) → ∀ p ∈ pyDictSet d k v, P p := by
  intro d
  induction d with
  | nil =>
    intro k v _ hkv p hp
    rcases List.mem_singleton.mp hp with rfl
    exact hkv
  | cons q rest ih =>
    intro k v hd hkv p hp
    unfold pyDictSet at hp
    by_cases hqk : q.1 = k
    · rw [if_pos hqk] at hp
      rcases List.mem_cons.mp hp with rfl | hp2
      · have : P (q.1, v) := by rw [hqk]; exact hkv
        exact this
      · exact hd p (List.mem_cons_of_mem q hp2)
    · rw [if_neg hqk] at hp
      rcases List.mem_cons.mp hp with rfl | hp2
      · exact hd p (List.mem_cons_self p rest)
      · exact ih k v (fun z hz => hd z (List.mem_cons_of_mem q hz)) hkv p hp2

theorem rules_foldl_inv :
    ∀ (rules : List RuleModel) (base : List (Int × RuleModel)),
      (∀ p ∈ base, p.2.id = some p.1) →
      ∀ p ∈ rules.foldl (fun acc r =>
          match r.id with
          | some i => pyDictSet acc i r
          | none => acc) base,
        p.2.id = some p.1 := by
  intro rules
  induction rules with
  | nil => intro base hb p hp; exact hb p hp
  | cons r rest ih =>
    intro base hb p hp
    rw [List.foldl_cons] at hp
    cases hr : r.id with
    | none =>
      rw [hr] at hp
      exact ih base hb p hp
    | some i =>
      rw [hr] at hp
      exact ih (pyDictSet base i r)
        (pyDictSet_inv (fun p => p.2.id = some p.1) base i r hb hr) p hp

theorem filters_foldl_inv :
    ∀ (filters : List FilterModel) (base : List (Int × FilterModel)),
      (∀ p ∈ base, p.2.id = some p.1) →
      ∀ p ∈ filters.foldl (fun acc f =>
          match f.id with
          | some i => pyDictSet acc i f
          | none => acc) base,
        p.2.id = some p.1 := by
  intro filters
  induction filters with
  | nil => intro base hb p hp; exact hb p hp
  | cons f rest ih =>
    intro base hb p hp
    rw [List.foldl_cons] at hp
    cases hf : f.id with
    | none =>
      rw [hf] at hp
      exact ih base hb p hp
    | some i =>
      rw [hf] at hp
      exact ih (pyDictSet base i f)
        (pyDictSet_inv (fun p => p.2.id = some p.1) base i f hb hf) p hp

theorem pyDictDel_foldl_subset {β : Type} :
    ∀ (ids : List Int) (d : List (Int × β)) (p : Int × β),
      p ∈ ids.foldl (fun acc i => pyDictDel acc i) d → p ∈ d := by
  intro ids
  induction ids with
  | nil => intro d p hp; exact hp
  | cons i rest ih =>
    intro d p hp
    rw [List.foldl_cons] at hp
    exact List.mem_of_mem_filter (ih (pyDictDel d i) p hp)

/-- applySyncFrame never changes the cache: every dispatch guard compares the
    raw wire int with a non-IntEnum member, which is False in Python. -/
theorem applySyncFrame_id (c : CacheState) (frame : WireSyncMessage) :
    applySyncFrame c frame = c := by
  unfold applySyncFrame pyIntEqOperationType
  simp

/-- handleSyncMsg never changes the cache: malformed frames are dropped by the
    exception handler and well-formed frames fall through every dispatch
    branch. -/
theorem handleSyncMsg_id (dec : FrameDecoder) (c : CacheState) (raw : List Nat) :
    handleSyncMsg dec c raw = c := by
  unfold handleSyncMsg
  cases dec raw with
  | error e => rfl
  | ok o =>
    cases o with
    | none => rfl
    | some frame => exact applySyncFrame_id c frame

theorem cacheOp_preserves_inv (c : CacheState) (op : CacheOp) (h : CacheInv c) :
    CacheInv (CacheOp.run c op) := by
  cases op with
  | updateRules rules clearAll =>
    refine ⟨?_, h.2⟩
    cases clearAll with
    | false => exact rules_foldl_inv rules c.rules h.1
    | true => exact rules_foldl_inv rules [] (by intro p hp; cases hp)
  | updateFilters filters clearAll =>
    refine ⟨h.1, ?_⟩
    cases clearAll with
    | false => exact filters_foldl_inv filters c.filters h.2
    | true => exact filters_foldl_inv filters [] (by intro p hp; cases hp)
  | addSingleRule r =>
    simp only [CacheOp.run, CacheState.add_single_rule]
    cases hr : r.id with
    | none => exact h
    | some i =>
      exact ⟨pyDictSet_inv (fun p => p.2.id = some p.1) c.rules i r h.1 hr, h.2⟩
  | addSingleFilter f =>
    simp only [CacheOp.run, CacheState.add_single_filter]
    cases hf : f.id with
    | none => exact h
    | some i =>
      exact ⟨h.1, pyDictSet_inv (fun p => p.2.id = some p.1) c.filters i f h.2 hf⟩
  | deleteRules ids =>
    exact ⟨fun p hp => h.1 p (pyDictDel_foldl_subset ids c.rules p hp), h.2⟩
  | deleteFilters ids =>
    exact ⟨h.1, fun p hp => h.2 p (pyDictDel_foldl_subset ids c.filters p hp)⟩
  | handleSync dec raw =>
    simp only [CacheOp.run]
    rw [handleSyncMsg_id]
    exact h
  | clearCache =>
    exact ⟨(by intro p hp; cases hp), (by intro p hp; cases hp)⟩

/-- C10: starting from the freshly initialized cache, any sequence of
    CacheStore calls leaves every stored rule keyed by its own id and every
    stored filter keyed by its own id (so no stored model has id None: a model
    with id None is never inserted).  Sync frames — in particular payload
    entries lacking an id — have no effect on the cache at all, because the
    handler parses entries with the raw wire id and then compares the wire
    operation int against Enum members, which never succeeds. -/
theorem c10_cache_keyed_by_own_id :
    (∀ ops : List CacheOp, CacheInv (runCacheOps CacheState.empty ops)) ∧
    (∀ (dec : FrameDecoder) (c : CacheState) (raw : List Nat),
      handleSyncMsg dec c raw = c) := by
  constructor
  · have hgen : ∀ (ops : List CacheOp) (c : CacheState), CacheInv c →
        CacheInv (runCacheOps c ops) := by
      intro ops
      induction ops with
      | nil => intro c hc; exact hc
      | cons op rest ih =>
        intro c hc
        exact ih (CacheOp.run c op) (cacheOp_preserves_inv c op hc)
    intro ops
    exact hgen ops CacheState.empty ⟨(by intro p hp; cases hp), (by intro p hp; cases hp)⟩
  · exact handleSyncMsg_id

end HttpFlow
